import Mathlib

/-!
A shallow embedding of `src/dashboard.py` (a pandas/streamlit retail
dashboard) and proofs about its filtering, aggregation, insight and
report-export logic.

Datasets are lists of rows; a row is an association list from column
names to cells.  A cell is a typed value: null (NaN/NaT), a number,
a string, or a date.  Dates are modelled as an absolute month index
together with a day-of-month, which is exactly the granularity the
script needs (day-level comparison for the date filter, month-level
bucketing for the `resample('M')` trend series).
-/

namespace Dash

/-- A cell of the in-memory table: NaN/NaT, a numeric value, a string,
or a datetime (absolute month index, day within month). -/
inductive Cell where
  | null : Cell
  | num  : ℚ → Cell
  | str  : String → Cell
  | date : Nat → Nat → Cell
deriving DecidableEq, Repr

/-- A row: association list from column name to cell, as produced by
`pd.read_csv`. -/
def Row : Type := List (String × Cell)

instance : DecidableEq Row := by unfold Row; infer_instance

/-- Reading a cell of a row by column name; a column absent from the
row reads as null (pandas yields NaN for missing values). -/
def Row.get (r : Row) (c : String) : Cell :=
  match r.find? (fun p => p.1 == c) with
  | some p => p.2
  | none => Cell.null

/-- The uploaded dataset: its column schema and its rows
(`df = pd.read_csv(uploaded_file)`). -/
structure Dataset where
  cols : List String
  rows : List Row
deriving DecidableEq

/-- `pd.to_datetime(·, errors='coerce')` on a single cell: datetimes
survive, everything else becomes NaT. -/
def toDatetime : Cell → Cell
  | Cell.date m d => Cell.date m d
  | _ => Cell.null

/-- `pd.to_numeric(·, errors='coerce')` on a single cell: numbers
survive, everything else becomes NaN. -/
def toNumeric : Cell → Cell
  | Cell.num q => Cell.num q
  | _ => Cell.null

/-- `df[c] = f(df[c])`: apply a coercion to the named column of a row,
leaving every other column untouched. -/
def coerceCol (f : Cell → Cell) (c : String) (r : Row) : Row :=
  r.map (fun p => if p.1 = c then (p.1, f p.2) else p)

/-- The four column names the script coerces to numeric
(`numeric_cols = ['Sales', 'Quantity', 'Profit', 'UnitPrice']`). -/
def numeric_cols : List String := ["Sales", "Quantity", "Profit", "UnitPrice"]

/-- The DATA PREP pass on one row: `pd.to_datetime` on `OrderDate` when
that column exists, then `pd.to_numeric` on each of the four known
numeric columns that exist. -/
def normalizeRow (cols : List String) (r : Row) : Row :=
  let r1 := if "OrderDate" ∈ cols then coerceCol toDatetime "OrderDate" r else r
  numeric_cols.foldl (fun acc c => if c ∈ cols then coerceCol toNumeric c acc else acc) r1

/-- The DATA PREP pass on the whole dataframe (lines 30-45 of the
script).  It is a total function: it only rewrites cells, never
raises. -/
def normalize (d : Dataset) : Dataset :=
  { cols := d.cols, rows := d.rows.map (normalizeRow d.cols) }

/-- Status messages the DATA PREP section emits (`st.warning` /
`st.info`), in order. -/
def normalizeStatus (d : Dataset) : List String :=
  if "OrderDate" ∈ d.cols then
    if ((normalize d).rows.all (fun r => Row.get r "OrderDate" = Cell.null)) then
      ["warn: OrderDate column exists but could not parse any dates"]
    else
      ["info: OrderDate parsed successfully"]
  else
    ["warn: OrderDate column not found - time-series charts disabled"]

/-- Day-level inclusive order on dates, `(month, day)` lexicographic:
models comparison of `datetime.date` values. -/
def dateLE (a b : Nat × Nat) : Bool :=
  a.1 < b.1 || (a.1 == b.1 && a.2 ≤ b.2)

/-- The filter state read from the sidebar widgets: the selected date
range (inclusive), the selected category values and the selected
region values. -/
structure FilterState where
  startDate : Nat × Nat
  endDate : Nat × Nat
  cats : List Cell
  regs : List Cell
deriving DecidableEq

/-- Whether the date filter is shown and applied:
`'OrderDate' in df.columns and df['OrderDate'].notna().any()`. -/
def dateFilterActive (d : Dataset) : Bool :=
  ("OrderDate" ∈ d.cols : Bool) &&
    d.rows.any (fun r => match Row.get r "OrderDate" with
      | Cell.date _ _ => true
      | _ => false)

/-- The date-range mask on one row:
`(df['OrderDate'].dt.date >= start_date) & (df['OrderDate'].dt.date <= end_date)`.
A NaT date compares false on both sides, so the row is dropped. -/
def datePass (s e : Nat × Nat) (r : Row) : Bool :=
  match Row.get r "OrderDate" with
  | Cell.date m d => dateLE s (m, d) && dateLE (m, d) e
  | _ => false

/-- `df_filtered` right after the date filter (lines 49-67). -/
def dfDate (d : Dataset) (fs : FilterState) : List Row :=
  if dateFilterActive d then d.rows.filter (datePass fs.startDate fs.endDate)
  else d.rows

/-- `Series.unique()`-style deduplication: keeps the first occurrence
of each value, in encounter order. -/
def dedupF : List Cell → List Cell
  | [] => []
  | a :: l => a :: (dedupF l).filter (fun x => x ≠ a)

/-- `cat_options = df_filtered['Category'].dropna().unique()` —
computed after the date filter, before the category filter. -/
def cat_options (d : Dataset) (fs : FilterState) : List Cell :=
  dedupF (((dfDate d fs).map (fun r => Row.get r "Category")).filter
    (fun c => c ≠ Cell.null))

/-- `df_filtered` after the category filter (lines 70-77):
`df_filtered[df_filtered['Category'].isin(categories)]`. -/
def dfAfterCat (d : Dataset) (fs : FilterState) : List Row :=
  if "Category" ∈ d.cols then
    (dfDate d fs).filter (fun r => Row.get r "Category" ∈ fs.cats)
  else dfDate d fs

/-- `reg_options = df_filtered['Region'].dropna().unique()` —
computed after the date and category filters. -/
def reg_options (d : Dataset) (fs : FilterState) : List Cell :=
  dedupF (((dfAfterCat d fs).map (fun r => Row.get r "Region")).filter
    (fun c => c ≠ Cell.null))

/-- `df_filtered` after all three sidebar filters (lines 49-87). -/
def df_filtered (d : Dataset) (fs : FilterState) : List Row :=
  if "Region" ∈ d.cols then
    (dfAfterCat d fs).filter (fun r => Row.get r "Region" ∈ fs.regs)
  else dfAfterCat d fs

/-- Numeric reading of a cell for summation: pandas `.sum()` skips
NaN, so a null (or non-numeric) cell contributes 0. -/
def cellNum : Cell → ℚ
  | Cell.num q => q
  | _ => 0

/-- `total_sales = df_filtered['Sales'].sum() if 'Sales' in df_filtered.columns else 0`. -/
def total_sales (d : Dataset) (fs : FilterState) : ℚ :=
  if "Sales" ∈ d.cols then
    (((df_filtered d fs).map (fun r => cellNum (Row.get r "Sales")))).sum
  else 0

/-- `total_orders = df_filtered['OrderID'].nunique() if 'OrderID' in df_filtered.columns else len(df_filtered)`.
`nunique` counts distinct non-null values. -/
def total_orders (d : Dataset) (fs : FilterState) : Nat :=
  if "OrderID" ∈ d.cols then
    (dedupF (((df_filtered d fs).map (fun r => Row.get r "OrderID")).filter
      (fun c => c ≠ Cell.null))).length
  else (df_filtered d fs).length

/-- `avg_order_value = total_sales / total_orders if total_orders > 0 else 0`. -/
def avg_order_value (d : Dataset) (fs : FilterState) : ℚ :=
  if total_orders d fs > 0 then total_sales d fs / (total_orders d fs : ℚ)
  else 0

/-- `total_profit = df_filtered['Profit'].sum() if 'Profit' in df_filtered.columns else 0`. -/
def total_profit (d : Dataset) (fs : FilterState) : ℚ :=
  if "Profit" ∈ d.cols then
    (((df_filtered d fs).map (fun r => cellNum (Row.get r "Profit")))).sum
  else 0

/-- Constructor tag, used to order cells of different kinds. -/
def Cell.tag : Cell → Nat
  | Cell.null => 0
  | Cell.num _ => 1
  | Cell.str _ => 2
  | Cell.date _ _ => 3

/-- Lexicographic order on strings by character code. -/
def strLT : List Char → List Char → Bool
  | [], [] => false
  | [], _ :: _ => true
  | _ :: _, [] => false
  | a :: s, b :: t => if a = b then strLT s t else a.toNat < b.toNat

/-- A total strict order on cells, used only to reproduce the sorted
group-key order of `groupby(..., sort=True)`. -/
def cellLT (a b : Cell) : Bool :=
  match a, b with
  | Cell.num p, Cell.num q => p < q
  | Cell.str s, Cell.str t => strLT s.data t.data
  | Cell.date m d, Cell.date m2 d2 => m < m2 || (m == m2 && d < d2)
  | a, b => a.tag < b.tag

/-- Insert a key into a sorted duplicate-free key list. -/
def insertKey (k : Cell) : List Cell → List Cell
  | [] => [k]
  | a :: l =>
      if k = a then a :: l
      else if cellLT k a then k :: a :: l
      else a :: insertKey k l

/-- The group keys of a pandas `groupby` with default `sort=True`:
distinct keys in sorted order. -/
def sortedKeys (l : List Cell) : List Cell := l.foldr insertKey []

/-- `df.groupby(key, dropna=True)['Sales'].sum()`: one entry per
distinct non-null key (in the grouping's key order), carrying the sum
of `Sales` over the rows of that group. -/
def groupSumSales (key : String) (rows : List Row) : List (Cell × ℚ) :=
  (sortedKeys ((rows.map (fun r => Row.get r key)).filter (fun c => c ≠ Cell.null))).map
    (fun k => (k, ((rows.filter (fun r => Row.get r key = k)).map
      (fun r => cellNum (Row.get r "Sales"))).sum))

/-- Helper for `idxmax`: the key of the first entry achieving the
maximum value, given the current best. -/
def idxmaxAux (k : Cell) (v : ℚ) : List (Cell × ℚ) → Cell
  | [] => k
  | p :: l => if v < p.2 then idxmaxAux p.1 p.2 l else idxmaxAux k v l

/-- `Series.idxmax()`: the index label of the first occurrence of the
maximum value; `none` on an empty series. -/
def idxmax : List (Cell × ℚ) → Option Cell
  | [] => none
  | p :: l => some (idxmaxAux p.1 p.2 l)

/-- `Series.max()` of a grouped-sum series (0 on empty, never used
there by the script). -/
def valsMax : List (Cell × ℚ) → ℚ
  | [] => 0
  | p :: l => l.foldl (fun acc q => max acc q.2) p.2

/-- The three kinds of smart-insight lines, in the order the script
appends them. -/
inductive Insight where
  | topRegion : Cell → ℚ → Insight
  | topCategory : Cell → Insight
  | trendIncreasing : Insight
  | trendDeclining : Insight
deriving DecidableEq, Repr

/-- `region_sales = df_filtered.groupby('Region', dropna=True)['Sales'].sum()`. -/
def region_sales (d : Dataset) (fs : FilterState) : List (Cell × ℚ) :=
  groupSumSales "Region" (df_filtered d fs)

/-- `cat_sales_s = df_filtered.groupby('Category', dropna=True)['Sales'].sum()`. -/
def cat_sales_s (d : Dataset) (fs : FilterState) : List (Cell × ℚ) :=
  groupSumSales "Category" (df_filtered d fs)

/-- The month index of a row's `OrderDate`, `none` for NaT. -/
def monthOf (r : Row) : Option Nat :=
  match Row.get r "OrderDate" with
  | Cell.date m _ => some m
  | _ => none

/-- `df_filtered.dropna(subset=['OrderDate']).set_index('OrderDate').sort_index().resample('M')['Sales'].sum()`:
monthly sales sums over every calendar month from the first to the
last observed month (months without rows sum to 0). -/
def sales_over_time (rows : List Row) : List ℚ :=
  match rows.filterMap monthOf with
  | [] => []
  | m :: ms =>
    let lo := ms.foldl Nat.min m
    let hi := ms.foldl Nat.max m
    (List.range (hi + 1 - lo)).map (fun i =>
      ((rows.filter (fun r => monthOf r = some (lo + i))).map
        (fun r => cellNum (Row.get r "Sales"))).sum)

/-- The trend insight block (lines 118-130): emitted only when more
than one monthly period exists; increasing iff the last monthly sum
strictly exceeds the second-to-last. -/
def trendInsight (rows : List Row) : List Insight :=
  match (sales_over_time rows).reverse with
  | a :: b :: _ =>
      if b < a then [Insight.trendIncreasing] else [Insight.trendDeclining]
  | _ => []

/-- The ordered smart-insights list (lines 102-130): top region, then
top category, then trend, each present only when its gate holds. -/
def insights (d : Dataset) (fs : FilterState) : List Insight :=
  (if ("Region" ∈ d.cols : Bool) && ("Sales" ∈ d.cols : Bool) then
    match idxmax (region_sales d fs) with
    | some k => [Insight.topRegion k (valsMax (region_sales d fs))]
    | none => []
  else []) ++
  (if ("Category" ∈ d.cols : Bool) && ("Sales" ∈ d.cols : Bool) then
    match idxmax (cat_sales_s d fs) with
    | some k => [Insight.topCategory k]
    | none => []
  else []) ++
  (if ("OrderDate" ∈ d.cols : Bool) && ("Sales" ∈ d.cols : Bool) then
    trendInsight (df_filtered d fs)
  else [])

/-- The character for a decimal digit. -/
def digitChar (n : Nat) : Char := Char.ofNat (48 + n)

/-- Decimal digits of a natural number, most significant first. -/
def natDigits (n : Nat) : List Char :=
  if h : n < 10 then [digitChar n]
  else natDigits (n / 10) ++ [digitChar (n % 10)]
termination_by n
decreasing_by
  exact Nat.div_lt_self (by omega) (by omega)

/-- Insert a `,` after every three characters (input is the digit list
least significant first). -/
def group3Rev : List Char → List Char
  | [] => []
  | [a] => [a]
  | [a, b] => [a, b]
  | [a, b, c] => [a, b, c]
  | a :: b :: c :: d :: rest => a :: b :: c :: ',' :: group3Rev (d :: rest)

/-- Python `f"{n:,}"` for a natural number: decimal digits with comma
thousands separators. -/
def commaGroup (n : Nat) : String :=
  ⟨(group3Rev (natDigits n).reverse).reverse⟩

/-- Exactly two decimal digits, for the cents part. -/
def twoDigits (m : Nat) : String :=
  ⟨[digitChar (m / 10 % 10), digitChar (m % 10)]⟩

/-- Python `f"{x:,.2f}"`: the value rounded to cents, comma-grouped
integer part, two decimal digits, a leading `-` when negative. -/
def formatFixed2 (q : ℚ) : String :=
  let c : ℤ := round (q * 100)
  (if c < 0 then "-" else "") ++ commaGroup (c.natAbs / 100) ++ "." ++ twoDigits (c.natAbs % 100)

/-- `summary_df` (lines 219-222): the four KPI rows, each a
(Metric, formatted Value) pair, exactly as the dashboard displays
them. -/
def summary_df (d : Dataset) (fs : FilterState) : List (String × String) :=
  [("Total Sales", "$" ++ formatFixed2 (total_sales d fs)),
   ("Total Orders", commaGroup (total_orders d fs)),
   ("Avg Order Value", "$" ++ formatFixed2 (avg_order_value d fs)),
   ("Total Profit", "$" ++ formatFixed2 (total_profit d fs))]

/-- csv.QUOTE_MINIMAL: a field is quoted iff it contains the
delimiter, the quote character or a line break. -/
def needsQuote (s : String) : Bool :=
  s.data.any (fun ch => ch = ',' || ch = '"' || ch = '\n' || ch = '\r')

/-- Double every quote character inside a quoted field. -/
def escapeQuotes (s : String) : String :=
  ⟨(s.data.map (fun ch => if ch = '"' then ['"', '"'] else [ch])).flatten⟩

/-- One CSV field as `to_csv` writes it. -/
def encodeField (s : String) : String :=
  if needsQuote s then "\"" ++ escapeQuotes s ++ "\"" else s

/-- One CSV record: comma-joined encoded fields. -/
def encodeRecord (row : List String) : String :=
  String.intercalate "," (row.map encodeField)

/-- `DataFrame.to_csv(index=False)`: comma-joined encoded fields, one
line per record, each line ended by a newline. -/
def encodeCSV (rows : List (List String)) : String :=
  rows.foldr (fun row acc => encodeRecord row ++ "\n" ++ acc) ""

/-- The bytes of the `summary.csv` download (lines 219-224): header
line then the four KPI rows. -/
def csvSummary (d : Dataset) (fs : FilterState) : String :=
  encodeCSV (["Metric", "Value"] :: (summary_df d fs).map (fun p => [p.1, p.2]))

/-- CSV reader state machine (`pd.read_csv` on the summary file):
`inQ` = inside a quoted field, `cur` = current field, `flds` =
finished fields of the current record, `rows` = finished records. -/
def csvAux (inQ : Bool) (cur : List Char) (flds : List String) (rows : List (List String)) :
    List Char → List (List String)
  | [] =>
      if !inQ && cur.isEmpty && flds.isEmpty then rows
      else rows ++ [flds ++ [⟨cur⟩]]
  | c :: rest =>
      if inQ then
        if c = '"' then
          if rest.head? = some '"' then csvAux true (cur ++ ['"']) flds rows rest.tail
          else csvAux false cur flds rows rest
        else csvAux true (cur ++ [c]) flds rows rest
      else
        if c = ',' then csvAux false [] (flds ++ [⟨cur⟩]) rows rest
        else if c = '\n' then csvAux false [] [] (rows ++ [flds ++ [⟨cur⟩]]) rest
        else if c = '"' && cur.isEmpty then csvAux true [] flds rows rest
        else csvAux false (cur ++ [c]) flds rows rest
termination_by l => l.length
decreasing_by
  all_goals simp_wf
  all_goals (try simp [List.length_tail])
  all_goals omega

/-- Parse a CSV document into its records. -/
def parseCSV (s : String) : List (List String) :=
  csvAux false [] [] [] s.data

/-- dtype test: a column is numeric-dtyped iff every cell in it is a
number or NaN (matches pandas dtype inference after coercion; slicing
preserves dtype, so this is judged on the full frame). -/
def numericDtype (d : Dataset) (c : String) : Bool :=
  d.rows.all (fun r => match Row.get r c with
    | Cell.num _ => true
    | Cell.null => true
    | _ => false)

/-- The titles of the charts the GRAPHS section renders, given the
column gates of lines 139, 157, 179, 192 and 205-206. -/
def charts (d : Dataset) : List String :=
  (if ("OrderDate" ∈ d.cols : Bool) && ("Sales" ∈ d.cols : Bool) then
    ["Sales Over Time"] else []) ++
  (if ("Product" ∈ d.cols : Bool) && ("Sales" ∈ d.cols : Bool) then
    ["Top 10 Products by Sales"] else []) ++
  (if ("Category" ∈ d.cols : Bool) && ("Sales" ∈ d.cols : Bool) then
    ["Sales by Category"] else []) ++
  (if ("Region" ∈ d.cols : Bool) && ("Sales" ∈ d.cols : Bool) then
    ["Sales by Region"] else []) ++
  (if 1 < (d.cols.filter (numericDtype d)).length then
    ["Correlation Heatmap"] else [])

/-- The smallest non-null date of the frame, for the date widget
bounds (`df['OrderDate'].min().date()` raises on an all-NaT column,
hence the `Option`). -/
def minDateOf (d : Dataset) : Option (Nat × Nat) :=
  d.rows.foldl (fun acc r =>
    match Row.get r "OrderDate", acc with
    | Cell.date m dd, none => some (m, dd)
    | Cell.date m dd, some b => some (if dateLE (m, dd) b then (m, dd) else b)
    | _, acc => acc) none

/-- Everything one execution of the script body shows or offers. -/
structure Output where
  messages : List String
  dateFilterShown : Bool
  chartList : List String
  kpis : ℚ × Nat × ℚ × ℚ
  insightList : List Insight
  summaryRows : List (String × String)
deriving DecidableEq

/-- The visible results of one run over the normalized frame. -/
def mkOutput (d : Dataset) (fs : FilterState) (shown : Bool) (msgs : List String) : Output :=
  { messages := msgs
    dateFilterShown := shown
    chartList := charts d
    kpis := (total_sales d fs, total_orders d fs, avg_order_value d fs, total_profit d fs)
    insightList := insights d fs
    summaryRows := summary_df d fs }

/-- One top-to-bottom execution of the script body on an uploaded
dataset (the whole body runs inside one `try`; the only statement
that can raise for a well-formed frame is taking `.date()` of the
min/max of the `OrderDate` column, which would fail on an empty or
all-NaT column — guarded at line 52). -/
def run (draw : Dataset) (fs : FilterState) : Except String Output :=
  let d := normalize draw
  let msgs := normalizeStatus draw
  if dateFilterActive d then
    match minDateOf d with
    | none => Except.error "cannot take date of NaT"
    | some _ => Except.ok (mkOutput d fs true msgs)
  else Except.ok (mkOutput d fs false msgs)

/-- A sequence of independent executions of the script, one per UI
interaction: the host re-runs the script from the top each time. -/
def runHistory (hist : List (Dataset × FilterState)) : List (Except String Output) :=
  hist.map (fun p => run p.1 p.2)

/-- Spec-side predicate (from the spec's words, for the refinement
claim about KPI totals): a row satisfies all active filters — the
inclusive date range when the date filter is active, membership of its
category in the selected set when a Category column exists, membership
of its region in the selected set when a Region column exists. -/
def passesAllFilters (d : Dataset) (fs : FilterState) (r : Row) : Bool :=
  (!dateFilterActive d || datePass fs.startDate fs.endDate r) &&
  (!("Category" ∈ d.cols : Bool) || (Row.get r "Category" ∈ fs.cats : Bool)) &&
  (!("Region" ∈ d.cols : Bool) || (Row.get r "Region" ∈ fs.regs : Bool))

/-- Claim-side quantity: the number of distinct (non-null) `OrderID`
values among the filtered rows — what the claim asserts the average's
divisor always is. -/
def distinctOrderCount (d : Dataset) (fs : FilterState) : Nat :=
  (dedupF (((df_filtered d fs).map (fun r => Row.get r "OrderID")).filter
    (fun c => c ≠ Cell.null))).length

/-- Claim-side quantity: the average order value as the claim defines
it — total sales over the distinct order count, 0 when that count
is 0. -/
def claimAvg (d : Dataset) (fs : FilterState) : ℚ :=
  if distinctOrderCount d fs = 0 then 0
  else total_sales d fs / (distinctOrderCount d fs : ℚ)

/-- A filter state that filters nothing out by date and selects the
given category and region values. -/
def mkFS (cats regs : List Cell) : FilterState :=
  { startDate := (0, 0), endDate := (999, 31), cats := cats, regs := regs }

/-- Example: two rows of 100 in sales, no `OrderID` column — the
displayed average is 100, while the claim's distinct-order divisor
is 0. -/
def exNoOid : Dataset :=
  { cols := ["Sales"],
    rows := [[("Sales", Cell.num 100)], [("Sales", Cell.num 100)]] }

/-- Example: a small full-featured dataset. -/
def exFull : Dataset :=
  { cols := ["OrderDate", "Sales", "Profit", "Category", "Region", "OrderID"],
    rows :=
      [[("OrderDate", Cell.date 10 5), ("Sales", Cell.num 100),
        ("Profit", Cell.num 10), ("Category", Cell.str "A"),
        ("Region", Cell.str "West"), ("OrderID", Cell.str "o1")],
       [("OrderDate", Cell.date 11 7), ("Sales", Cell.num 200),
        ("Profit", Cell.num 20), ("Category", Cell.str "B"),
        ("Region", Cell.str "East"), ("OrderID", Cell.str "o2")],
       [("OrderDate", Cell.date 11 9), ("Sales", Cell.num 50),
        ("Profit", Cell.num (-5)), ("Category", Cell.str "A"),
        ("Region", Cell.str "East"), ("OrderID", Cell.str "o2")]] }

/-- A filter state for `exFull` that keeps every row. -/
def exFullFS : FilterState :=
  mkFS [Cell.str "A", Cell.str "B"] [Cell.str "West", Cell.str "East"]

/-- Example: a dataset with a null Category cell and a null Region
cell. -/
def exNullCat : Dataset :=
  { cols := ["Sales", "Category", "Region"],
    rows :=
      [[("Sales", Cell.num 7), ("Category", Cell.null), ("Region", Cell.str "E")],
       [("Sales", Cell.num 8), ("Category", Cell.str "A"), ("Region", Cell.null)],
       [("Sales", Cell.num 9), ("Category", Cell.str "A"), ("Region", Cell.str "E")]] }

/-- The filter state for `exNullCat` in which every offered category
and region option is selected. -/
def exNullCatFS : FilterState :=
  mkFS (cat_options exNullCat (mkFS [] []))
    (reg_options exNullCat (mkFS (cat_options exNullCat (mkFS [] [])) []))

/-- Example: a dataset with no `OrderDate` column. -/
def exNoDate : Dataset :=
  { cols := ["Sales", "Region"],
    rows := [[("Sales", Cell.num 100), ("Region", Cell.str "W")]] }

/-- Example: a dataset whose `OrderDate` column exists but no row of
it parses as a date. -/
def exBadDates : Dataset :=
  { cols := ["OrderDate", "Sales"],
    rows := [[("OrderDate", Cell.str "not-a-date"), ("Sales", Cell.num 5)]] }

/-- `unique()` preserves the underlying set of values. -/
theorem mem_dedupF (l : List Cell) (a : Cell) : a ∈ dedupF l ↔ a ∈ l := by
  induction l with
  | nil => simp [dedupF]
  | cons b t ih =>
      simp only [dedupF, List.mem_cons, List.mem_filter, ih, decide_eq_true_eq]
      constructor
      · rintro (rfl | ⟨h, _⟩)
        · exact Or.inl rfl
        · exact Or.inr h
      · rintro (rfl | h)
        · exact Or.inl rfl
        · by_cases hab : a = b
          · exact Or.inl hab
          · exact Or.inr ⟨h, hab⟩

/-- The offered category options never contain the null value. -/
theorem null_not_mem_cat_options (d : Dataset) (fs : FilterState) :
    Cell.null ∉ cat_options d fs := by
  simp [cat_options, mem_dedupF, List.mem_filter]

/-- The offered region options never contain the null value. -/
theorem null_not_mem_reg_options (d : Dataset) (fs : FilterState) :
    Cell.null ∉ reg_options d fs := by
  simp [reg_options, mem_dedupF, List.mem_filter]

/-- Every fully filtered row also survives the date+category stage. -/
theorem df_filtered_subset_dfAfterCat (d : Dataset) (fs : FilterState) (r : Row)
    (h : r ∈ df_filtered d fs) : r ∈ dfAfterCat d fs := by
  unfold df_filtered at h
  split at h
  · exact (List.mem_filter.mp h).1
  · exact h

/-- C9: determinism — the results of an execution on a given dataset
and filter state are the same whatever earlier executions the host ran
before it; each execution's output is the pure function `run` of its
own dataset and filter state alone. -/
theorem derived_entities_deterministic (h₁ h₂ : List (Dataset × FilterState))
    (d : Dataset) (fs : FilterState) :
    (runHistory (h₁ ++ [(d, fs)])).getLast? = (runHistory (h₂ ++ [(d, fs)])).getLast? ∧
    (runHistory (h₁ ++ [(d, fs)])).getLast? = some (run d fs) := by
  simp [runHistory, List.getLast?_concat]

/-- C5: the category multi-select offers exactly the distinct non-null
`Category` values present after the date filter (before the
category/region filters). -/
theorem cat_options_spec (d : Dataset) (fs : FilterState)
    (hC : "Category" ∈ d.cols) (c : Cell) :
    c ∈ cat_options d fs ↔
      (c ≠ Cell.null ∧ ∃ r ∈ dfDate d fs, Row.get r "Category" = c) := by
  simp only [cat_options, mem_dedupF, List.mem_filter, List.mem_map,
    decide_eq_true_eq, ne_eq]
  tauto

/-- Witness for `cat_options_spec` at a concrete dataset. -/
theorem cat_options_spec_witness :
    Cell.str "A" ∈ cat_options exNullCat exNullCatFS ↔
      (Cell.str "A" ≠ Cell.null ∧
        ∃ r ∈ dfDate exNullCat exNullCatFS, Row.get r "Category" = Cell.str "A") :=
  cat_options_spec exNullCat exNullCatFS (by decide) (Cell.str "A")

/-- C10: a row whose Category (respectively Region) cell is null is
excluded by the category (respectively region) filter even when every
offered option is selected. -/
theorem null_rows_filtered_out (d : Dataset) (fs : FilterState) (r : Row)
    (h : ("Category" ∈ d.cols ∧ fs.cats = cat_options d fs ∧
            Row.get r "Category" = Cell.null) ∨
         ("Region" ∈ d.cols ∧ fs.regs = reg_options d fs ∧
            Row.get r "Region" = Cell.null)) :
    r ∉ df_filtered d fs := by
  intro hmem
  rcases h with ⟨hC, hsel, hnull⟩ | ⟨hR, hsel, hnull⟩
  · have hcat : r ∈ dfAfterCat d fs := df_filtered_subset_dfAfterCat d fs r hmem
    unfold dfAfterCat at hcat
    rw [if_pos hC] at hcat
    have := (List.mem_filter.mp hcat).2
    rw [hnull, hsel] at this
    exact null_not_mem_cat_options d fs (by simpa using this)
  · unfold df_filtered at hmem
    rw [if_pos hR] at hmem
    have := (List.mem_filter.mp hmem).2
    rw [hnull, hsel] at this
    exact null_not_mem_reg_options d fs (by simpa using this)

/-- Witness for `null_rows_filtered_out`: the null-category row of
`exNullCat` is dropped although every offered option is selected. -/
theorem null_rows_filtered_out_witness :
    [("Sales", Cell.num 7), ("Category", Cell.null), ("Region", Cell.str "E")] ∉
      df_filtered exNullCat exNullCatFS :=
  null_rows_filtered_out exNullCat exNullCatFS _
    (Or.inl ⟨by decide, by decide, by decide⟩)

/-- The three sequential sidebar filters equal one pass that keeps
exactly the rows satisfying all active filters. -/
theorem df_filtered_eq_filter (d : Dataset) (fs : FilterState) :
    df_filtered d fs = d.rows.filter (passesAllFilters d fs) := by
  unfold df_filtered dfAfterCat dfDate passesAllFilters
  by_cases hD : dateFilterActive d <;> by_cases hC : "Category" ∈ d.cols <;>
    by_cases hR : "Region" ∈ d.cols <;>
      simp [hD, hC, hR, List.filter_filter, Bool.and_comm, Bool.and_assoc,
        Bool.and_left_comm]

/-- C2: the KPI totals (total sales, total profit) are the sums of
the respective columns over exactly the rows that satisfy all active
filters — inclusive date range, selected category set, selected
region set — and no other rows. -/
theorem kpi_totals_over_filtered_rows (d : Dataset) (fs : FilterState)
    (hS : "Sales" ∈ d.cols) (hP : "Profit" ∈ d.cols) :
    df_filtered d fs = d.rows.filter (passesAllFilters d fs) ∧
    total_sales d fs =
      ((d.rows.filter (passesAllFilters d fs)).map
        (fun r => cellNum (Row.get r "Sales"))).sum ∧
    total_profit d fs =
      ((d.rows.filter (passesAllFilters d fs)).map
        (fun r => cellNum (Row.get r "Profit"))).sum := by
  refine ⟨df_filtered_eq_filter d fs, ?_, ?_⟩ <;>
    simp [total_sales, total_profit, hS, hP, ← df_filtered_eq_filter]

/-- Witness for `kpi_totals_over_filtered_rows` at a concrete
dataset. -/
theorem kpi_totals_over_filtered_rows_witness :
    df_filtered exFull exFullFS =
      exFull.rows.filter (passesAllFilters exFull exFullFS) ∧
    total_sales exFull exFullFS =
      ((exFull.rows.filter (passesAllFilters exFull exFullFS)).map
        (fun r => cellNum (Row.get r "Sales"))).sum ∧
    total_profit exFull exFullFS =
      ((exFull.rows.filter (passesAllFilters exFull exFullFS)).map
        (fun r => cellNum (Row.get r "Profit"))).sum :=
  kpi_totals_over_filtered_rows exFull exFullFS (by decide) (by decide)

/-- `unique()` returns a duplicate-free list. -/
theorem dedupF_nodup (l : List Cell) : (dedupF l).Nodup := by
  induction l with
  | nil => simp [dedupF]
  | cons a t ih =>
      refine List.Nodup.cons ?_ (ih.filter _)
      intro hmem
      have := (List.mem_filter.mp hmem).2
      simp at this

/-- `unique()` preserves the value set. -/
theorem toFinset_dedupF (l : List Cell) : (dedupF l).toFinset = l.toFinset := by
  ext a
  simp [mem_dedupF]

/-- The length of `unique()` is the cardinality of the value set. -/
theorem dedupF_length_eq_card (l : List Cell) :
    (dedupF l).length = l.toFinset.card := by
  rw [← toFinset_dedupF l, List.toFinset_card_of_nodup (dedupF_nodup l)]

/-- C1 counterexample: on a dataset with no `OrderID` column the
displayed average order value is 100 while the claim's value — total
sales over the distinct `OrderID` count, 0 when that count is 0 —
is 0. -/
theorem avg_claim_counterexample :
    avg_order_value exNoOid (mkFS [] []) = 100 ∧
    claimAvg exNoOid (mkFS [] []) = 0 ∧
    avg_order_value exNoOid (mkFS [] []) ≠ claimAvg exNoOid (mkFS [] []) := by
  simp +decide only [avg_order_value, claimAvg, total_sales, total_orders,
    distinctOrderCount, df_filtered, dfAfterCat, dfDate, dateFilterActive,
    exNoOid, mkFS, Row.get, cellNum, dedupF, List.filter, List.map, List.find?,
    List.length, List.sum, List.any, List.mem_cons]
  norm_num

/-- C1 amended: the displayed average order value is total sales over
`total_orders`, and 0 when `total_orders` is 0 (so the division-by-
zero branch is never taken); `total_orders` is the number of distinct
non-null `OrderID` values when an `OrderID` column exists, and the
filtered row count otherwise. -/
theorem avg_order_value_amended (d : Dataset) (fs : FilterState) :
    (total_orders d fs = 0 → avg_order_value d fs = 0) ∧
    (0 < total_orders d fs →
      avg_order_value d fs * (total_orders d fs : ℚ) = total_sales d fs) ∧
    ("OrderID" ∈ d.cols →
      total_orders d fs =
        (((df_filtered d fs).map (fun r => Row.get r "OrderID")).filter
          (fun c => c ≠ Cell.null)).toFinset.card ∧
      total_orders d fs = distinctOrderCount d fs) ∧
    ("OrderID" ∉ d.cols → total_orders d fs = (df_filtered d fs).length) := by
  refine ⟨?_, ?_, ?_, ?_⟩
  · intro h
    simp [avg_order_value, h]
  · intro h
    have hne : (total_orders d fs : ℚ) ≠ 0 :=
      Nat.cast_ne_zero.mpr (Nat.pos_iff_ne_zero.mp h)
    rw [avg_order_value, if_pos h]
    exact div_mul_cancel₀ _ hne
  · intro h
    refine ⟨?_, ?_⟩
    · rw [total_orders, if_pos h, dedupF_length_eq_card]
    · simp [total_orders, distinctOrderCount, h]
  · intro h
    simp [total_orders, h]

/-- Witness for `avg_order_value_amended` at a concrete dataset with
an `OrderID` column and a positive order count. -/
theorem avg_order_value_amended_witness :
    avg_order_value exFull exFullFS * (total_orders exFull exFullFS : ℚ) =
      total_sales exFull exFullFS ∧
    total_orders exFull exFullFS = distinctOrderCount exFull exFullFS :=
  ⟨(avg_order_value_amended exFull exFullFS).2.1 (by decide),
   ((avg_order_value_amended exFull exFullFS).2.2.1 (by decide)).2⟩

/-- Coercing one column leaves every other column's cells unchanged. -/
theorem get_coerceCol_ne (f : Cell → Cell) (c c' : String) (r : Row) (h : c ≠ c') :
    Row.get (coerceCol f c' r) c = Row.get r c := by
  induction r with
  | nil => rfl
  | cons p t ih =>
      show Row.get ((if p.1 = c' then (p.1, f p.2) else p) :: coerceCol f c' t) c =
        Row.get (p :: t) c
      unfold Row.get
      by_cases hc : p.1 = c
      · have hp : ¬p.1 = c' := fun hpe => h (hc ▸ hpe)
        simp [List.find?, hp, hc, h]
      · have hf2 : ((if p.1 = c' then (p.1, f p.2) else p).1 == c) = false := by
          split <;> simp [hc]
        have hf3 : (p.1 == c) = false := by simp [hc]
        simp only [List.find?, hf2, hf3]
        exact ih

/-- Coercing a column rewrites exactly that column's cell by the
coercion (a column missing from the row reads as null on both sides,
whence the side condition). -/
theorem get_coerceCol_eq (f : Cell → Cell) (c : String) (r : Row)
    (hf : f Cell.null = Cell.null) :
    Row.get (coerceCol f c r) c = f (Row.get r c) := by
  induction r with
  | nil => simpa [Row.get, coerceCol] using hf.symm
  | cons p t ih =>
      show Row.get ((if p.1 = c then (p.1, f p.2) else p) :: coerceCol f c t) c =
        f (Row.get (p :: t) c)
      unfold Row.get
      by_cases hc : p.1 = c
      · simp [List.find?, hc]
      · have hf3 : (p.1 == c) = false := by simp [hc]
        simp only [List.find?, hc, if_false, if_neg hc, hf3]
        exact ih

/-- Reading through one conditional column coercion. -/
theorem get_condCoerce (f : Cell → Cell) (n c : String) (r : Row) (b : Prop)
    [Decidable b] (hf : f Cell.null = Cell.null) :
    Row.get (if b then coerceCol f n r else r) c =
      if c = n ∧ b then f (Row.get r c) else Row.get r c := by
  by_cases hb : b <;> by_cases hcn : c = n <;>
    simp [hb, hcn, get_coerceCol_ne, get_coerceCol_eq, hf]

/-- What DATA PREP does to each cell: `OrderDate` (when that column
exists) goes through `pd.to_datetime`, the four known numeric columns
(when they exist) go through `pd.to_numeric`, everything else is
untouched. -/
theorem get_normalizeRow (cols : List String) (r : Row) (c : String) :
    Row.get (normalizeRow cols r) c =
      if c = "OrderDate" ∧ c ∈ cols then toDatetime (Row.get r c)
      else if c ∈ numeric_cols ∧ c ∈ cols then toNumeric (Row.get r c)
      else Row.get r c := by
  simp only [normalizeRow, numeric_cols, List.foldl_cons, List.foldl_nil]
  rw [get_condCoerce _ _ _ _ _ rfl, get_condCoerce _ _ _ _ _ rfl,
      get_condCoerce _ _ _ _ _ rfl, get_condCoerce _ _ _ _ _ rfl,
      get_condCoerce _ _ _ _ _ rfl]
  by_cases h1 : c = "OrderDate"
  · subst h1
    by_cases h2 : "OrderDate" ∈ cols <;> simp +decide [h2, numeric_cols]
  · by_cases h3 : c ∈ numeric_cols
    · have h3' : c = "Sales" ∨ c = "Quantity" ∨ c = "Profit" ∨ c = "UnitPrice" := by
        simpa [numeric_cols] using h3
      by_cases h4 : c ∈ cols
      · rcases h3' with rfl | rfl | rfl | rfl <;> simp +decide [h4, numeric_cols]
      · rcases h3' with rfl | rfl | rfl | rfl <;> simp +decide [h4, numeric_cols]
    · have hall : c ≠ "Sales" ∧ c ≠ "Quantity" ∧ c ≠ "Profit" ∧ c ≠ "UnitPrice" := by
        simpa [numeric_cols] using h3
      obtain ⟨hS, hQ, hP, hU⟩ := hall
      simp [h1, h3, hS, hQ, hP, hU, numeric_cols]

/-- C8: the normalizer coerces only `OrderDate` (when present) to
datetime and the four known numeric columns (when present) to
numeric, nulling unparseable cells; every other column's cells are
unchanged; it is a total function whose status output is exactly one
message: the failed-parse warning iff the column exists and every
row's `OrderDate` fails to parse, the success message iff the column
exists and some row parses, and the missing-column warning iff the
column is absent. -/
theorem normalizer_spec (d : Dataset) (r : Row) (c : String) :
    ((c ≠ "OrderDate" ∧ c ∉ numeric_cols) →
        Row.get (normalizeRow d.cols r) c = Row.get r c) ∧
    (("OrderDate" ∈ d.cols ∧ c = "OrderDate") →
        Row.get (normalizeRow d.cols r) c = toDatetime (Row.get r c)) ∧
    (("OrderDate" ∉ d.cols ∧ c = "OrderDate") →
        Row.get (normalizeRow d.cols r) c = Row.get r c) ∧
    ((c ∈ numeric_cols ∧ c ∈ d.cols) →
        Row.get (normalizeRow d.cols r) c = toNumeric (Row.get r c)) ∧
    ((c ∈ numeric_cols ∧ c ∉ d.cols) →
        Row.get (normalizeRow d.cols r) c = Row.get r c) ∧
    (normalize d).cols = d.cols ∧
    (normalize d).rows = d.rows.map (normalizeRow d.cols) ∧
    (("OrderDate" ∈ d.cols ∧
        (∀ r2 ∈ d.rows, toDatetime (Row.get r2 "OrderDate") = Cell.null)) →
      normalizeStatus d =
        ["warn: OrderDate column exists but could not parse any dates"]) ∧
    (("OrderDate" ∈ d.cols ∧
        ¬(∀ r2 ∈ d.rows, toDatetime (Row.get r2 "OrderDate") = Cell.null)) →
      normalizeStatus d = ["info: OrderDate parsed successfully"]) ∧
    ("OrderDate" ∉ d.cols →
      normalizeStatus d =
        ["warn: OrderDate column not found - time-series charts disabled"]) := by
  have hOD : ("OrderDate" : String) ∉ numeric_cols := by decide
  have hget : ∀ r2 : Row, "OrderDate" ∈ d.cols →
      Row.get (normalizeRow d.cols r2) "OrderDate" =
        toDatetime (Row.get r2 "OrderDate") := by
    intro r2 h1
    rw [get_normalizeRow]
    simp [h1]
  have hrows : (normalize d).rows = d.rows.map (normalizeRow d.cols) := rfl
  have hiff : "OrderDate" ∈ d.cols →
      ((((normalize d).rows.all
          (fun r2 => Row.get r2 "OrderDate" = Cell.null)) = true) ↔
        ∀ r2 ∈ d.rows, toDatetime (Row.get r2 "OrderDate") = Cell.null) := by
    intro h1
    rw [hrows, List.all_eq_true]
    constructor
    · intro hall r2 hr2
      have h3 := hall (normalizeRow d.cols r2) (List.mem_map_of_mem _ hr2)
      rw [decide_eq_true_eq] at h3
      rw [← hget r2 h1]
      exact h3
    · intro hall r2 hr2
      obtain ⟨r0, hr0, rfl⟩ := List.mem_map.mp hr2
      rw [decide_eq_true_eq, hget r0 h1]
      exact hall r0 hr0
  refine ⟨?_, ?_, ?_, ?_, ?_, rfl, rfl, ?_, ?_, ?_⟩
  · rintro ⟨h1, h2⟩
    rw [get_normalizeRow]
    simp [h1, h2]
  · rintro ⟨h1, rfl⟩
    rw [get_normalizeRow]
    simp [h1]
  · rintro ⟨h1, rfl⟩
    rw [get_normalizeRow]
    simp [h1, hOD]
  · rintro ⟨h1, h2⟩
    rw [get_normalizeRow]
    have : c ≠ "OrderDate" := fun hc => hOD (hc ▸ h1)
    simp [h1, h2, this]
  · rintro ⟨h1, h2⟩
    rw [get_normalizeRow]
    have hne : c ≠ "OrderDate" := fun hc => hOD (hc ▸ h1)
    simp [h1, h2, hne]
  · rintro ⟨h1, hall⟩
    unfold normalizeStatus
    rw [if_pos h1, if_pos ((hiff h1).mpr hall)]
  · rintro ⟨h1, hall⟩
    unfold normalizeStatus
    rw [if_pos h1, if_neg (fun hc => hall ((hiff h1).mp hc))]
  · intro h1
    unfold normalizeStatus
    rw [if_neg h1]

/-- Witness for `normalizer_spec` on a concrete row of `exFull`:
`Sales` is numerically coerced, `OrderDate` is datetime-coerced, and
`Region` is untouched. -/
theorem normalizer_spec_witness :
    Row.get (normalizeRow exFull.cols
      [("OrderDate", Cell.str "oops"), ("Sales", Cell.num 3),
       ("Region", Cell.str "W")]) "Sales" =
      toNumeric (Row.get
        [("OrderDate", Cell.str "oops"), ("Sales", Cell.num 3),
         ("Region", Cell.str "W")] "Sales") ∧
    Row.get (normalizeRow exFull.cols
      [("OrderDate", Cell.str "oops"), ("Sales", Cell.num 3),
       ("Region", Cell.str "W")]) "OrderDate" =
      toDatetime (Row.get
        [("OrderDate", Cell.str "oops"), ("Sales", Cell.num 3),
         ("Region", Cell.str "W")] "OrderDate") ∧
    Row.get (normalizeRow exFull.cols
      [("OrderDate", Cell.str "oops"), ("Sales", Cell.num 3),
       ("Region", Cell.str "W")]) "Region" =
      Row.get
        [("OrderDate", Cell.str "oops"), ("Sales", Cell.num 3),
         ("Region", Cell.str "W")] "Region" ∧
    normalizeStatus exFull = ["info: OrderDate parsed successfully"] ∧
    normalizeStatus exBadDates =
      ["warn: OrderDate column exists but could not parse any dates"] :=
  ⟨((normalizer_spec exFull _ "Sales").2.2.2.1 ⟨by decide, by decide⟩),
   ((normalizer_spec exFull _ "OrderDate").2.1 ⟨by decide, rfl⟩),
   ((normalizer_spec exFull _ "Region").1 ⟨by decide, by decide⟩),
   ((normalizer_spec exFull [] "Region").2.2.2.2.2.2.2.2.1
     ⟨by decide, by decide⟩),
   ((normalizer_spec exBadDates [] "Region").2.2.2.2.2.2.2.1
     ⟨by decide, by decide⟩)⟩

/-- C7: on a dataset lacking an `OrderDate` column the run succeeds
(no error is raised), the date filter is not shown, no time-series
chart is rendered, the missing-column warning is the status message,
and every other feature still executes — the KPI cards, insights and
summary rows are all produced, and column-gated charts such as Sales
by Region still appear when their columns exist. -/
theorem no_orderdate_spec (d : Dataset) (fs : FilterState)
    (h : "OrderDate" ∉ d.cols) :
    run d fs = Except.ok (mkOutput (normalize d) fs false (normalizeStatus d)) ∧
    (mkOutput (normalize d) fs false (normalizeStatus d)).dateFilterShown = false ∧
    "Sales Over Time" ∉ charts (normalize d) ∧
    normalizeStatus d =
      ["warn: OrderDate column not found - time-series charts disabled"] ∧
    (("Region" ∈ d.cols ∧ "Sales" ∈ d.cols) →
      "Sales by Region" ∈ charts (normalize d)) ∧
    (mkOutput (normalize d) fs false (normalizeStatus d)).kpis =
      (total_sales (normalize d) fs, total_orders (normalize d) fs,
       avg_order_value (normalize d) fs, total_profit (normalize d) fs) ∧
    (mkOutput (normalize d) fs false (normalizeStatus d)).insightList =
      insights (normalize d) fs ∧
    (mkOutput (normalize d) fs false (normalizeStatus d)).summaryRows =
      summary_df (normalize d) fs := by
  have hcols : (normalize d).cols = d.cols := rfl
  have hactive : dateFilterActive (normalize d) = false := by
    simp [dateFilterActive, normalize, h]
  refine ⟨?_, rfl, ?_, ?_, ?_, rfl, rfl, rfl⟩
  · simp [run, hactive]
  · intro hmem
    simp only [charts, hcols, List.mem_append] at hmem
    rcases hmem with ((((h1 | h2) | h3) | h4) | h5) <;>
      [skip; skip; skip; skip; skip] <;> split_ifs at * <;> simp_all
  · simp [normalizeStatus, h]
  · rintro ⟨hR, hS⟩
    simp [charts, hcols, hR, hS]

/-- Witness for `no_orderdate_spec` at a concrete dataset lacking
`OrderDate`. -/
theorem no_orderdate_spec_witness :
    run exNoDate (mkFS [] []) =
      Except.ok (mkOutput (normalize exNoDate) (mkFS [] []) false
        (normalizeStatus exNoDate)) ∧
    "Sales Over Time" ∉ charts (normalize exNoDate) ∧
    normalizeStatus exNoDate =
      ["warn: OrderDate column not found - time-series charts disabled"] ∧
    "Sales by Region" ∈ charts (normalize exNoDate) :=
  let hmain := no_orderdate_spec exNoDate (mkFS [] []) (by decide)
  ⟨hmain.1, hmain.2.2.1, hmain.2.2.2.1, hmain.2.2.2.2.1 ⟨by decide, by decide⟩⟩

/-- The running maximum of the fold never drops below its initial
value. -/
theorem foldlMax_init_le (l : List (Cell × ℚ)) (v : ℚ) :
    v ≤ l.foldl (fun a p => max a p.2) v := by
  induction l generalizing v with
  | nil => exact le_refl v
  | cons p t ih => exact le_trans (le_max_left v p.2) (ih (max v p.2))

/-- Every listed value is bounded by the fold's maximum. -/
theorem mem_le_foldlMax (l : List (Cell × ℚ)) (v : ℚ) (q : Cell × ℚ)
    (hq : q ∈ l) : q.2 ≤ l.foldl (fun a p => max a p.2) v := by
  induction l generalizing v with
  | nil => cases hq
  | cons p t ih =>
      rcases List.mem_cons.mp hq with rfl | hmem
      · exact le_trans (le_max_right v q.2) (foldlMax_init_le t (max v q.2))
      · exact ih (max v p.2) hmem

/-- `idxmaxAux` returns the key of the first entry achieving the
series maximum (`head?` of the maximizing entries). -/
theorem idxmaxAux_first_max (t : List (Cell × ℚ)) (k : Cell) (v : ℚ) :
    (((k, v) :: t).filter
        (fun p => p.2 = t.foldl (fun a q => max a q.2) v)).head? =
      some (idxmaxAux k v t, t.foldl (fun a q => max a q.2) v) := by
  induction t generalizing k v with
  | nil => simp [idxmaxAux]
  | cons p t ih =>
      simp only [List.foldl_cons, idxmaxAux]
      by_cases hlt : v < p.2
      · rw [if_pos hlt]
        simp only [max_eq_right (le_of_lt hlt)]
        have hvne : v ≠ t.foldl (fun a q => max a q.2) p.2 :=
          fun hv => absurd (hv ▸ foldlMax_init_le t p.2) (not_le.mpr hlt)
        rw [List.filter_cons_of_neg (by simpa using hvne)]
        exact ih p.1 p.2
      · rw [if_neg hlt]
        simp only [max_eq_left (not_lt.mp hlt)]
        have hple : p.2 ≤ v := not_lt.mp hlt
        have hvle : v ≤ t.foldl (fun a q => max a q.2) v := foldlMax_init_le t v
        by_cases hveq : v = t.foldl (fun a q => max a q.2) v
        · have hk : idxmaxAux k v t = k := by
            have h2 := ih k v
            rw [List.filter_cons_of_pos (by simpa using hveq)] at h2
            simp only [List.head?_cons, Option.some.injEq, Prod.mk.injEq] at h2
            exact h2.1.symm
          rw [hk, List.filter_cons_of_pos (by simpa using hveq)]
          simp only [List.head?_cons, Option.some.injEq, Prod.mk.injEq]
          exact ⟨trivial, hveq⟩
        · have hplt : p.2 < t.foldl (fun a q => max a q.2) v :=
            lt_of_le_of_lt hple (lt_of_le_of_ne hvle hveq)
          rw [List.filter_cons_of_neg (by simpa using hveq),
              List.filter_cons_of_neg (by simpa using ne_of_lt hplt)]
          have h2 := ih k v
          rw [List.filter_cons_of_neg (by simpa using hveq)] at h2
          exact h2

/-- C3: when the filtered data has at least one non-null region group,
the top-region insight is emitted and names the region whose summed
Sales is maximal; on ties it names the first such region in the order
the grouping produces (`head?` of the maximizing entries of the
grouped series). -/
theorem top_region_spec (d : Dataset) (fs : FilterState)
    (hR : "Region" ∈ d.cols) (hS : "Sales" ∈ d.cols)
    (h : region_sales d fs ≠ []) :
    idxmax (region_sales d fs) =
      some ((idxmax (region_sales d fs)).getD Cell.null) ∧
    Insight.topRegion ((idxmax (region_sales d fs)).getD Cell.null)
        (valsMax (region_sales d fs)) ∈ insights d fs ∧
    ((idxmax (region_sales d fs)).getD Cell.null,
        valsMax (region_sales d fs)) ∈ region_sales d fs ∧
    ((region_sales d fs).all
        (fun p => p.2 ≤ valsMax (region_sales d fs))) = true ∧
    ((region_sales d fs).filter
        (fun p => p.2 = valsMax (region_sales d fs))).head? =
      some ((idxmax (region_sales d fs)).getD Cell.null,
        valsMax (region_sales d fs)) := by
  obtain ⟨p, t, hrs⟩ : ∃ p t, region_sales d fs = p :: t := by
    rcases hcase : region_sales d fs with _ | ⟨p, t⟩
    · exact absurd hcase h
    · exact ⟨p, t, rfl⟩
  have hidx : idxmax (region_sales d fs) = some (idxmaxAux p.1 p.2 t) := by
    rw [hrs]; rfl
  have hgetD : (idxmax (region_sales d fs)).getD Cell.null =
      idxmaxAux p.1 p.2 t := by rw [hidx]; rfl
  have hval : valsMax (region_sales d fs) =
      t.foldl (fun a q => max a q.2) p.2 := by rw [hrs]; rfl
  have hfil := idxmaxAux_first_max t p.1 p.2
  have hfil2 : ((region_sales d fs).filter
      (fun q => q.2 = valsMax (region_sales d fs))).head? =
      some ((idxmax (region_sales d fs)).getD Cell.null,
        valsMax (region_sales d fs)) := by
    rw [hgetD, hval, hrs]
    exact hfil
  refine ⟨by rw [hgetD, hidx], ?_, ?_, ?_, hfil2⟩
  · rw [hgetD]
    unfold insights
    rw [hidx]
    simp [hR, hS]
  · rcases hf2 : ((region_sales d fs).filter
        (fun q => q.2 = valsMax (region_sales d fs))) with _ | ⟨q, r⟩
    · rw [hf2] at hfil2
      cases hfil2
    · rw [hf2] at hfil2
      have hq : q = ((idxmax (region_sales d fs)).getD Cell.null,
          valsMax (region_sales d fs)) := by
        simpa using hfil2
      have hqmem : q ∈ (region_sales d fs).filter
          (fun q => q.2 = valsMax (region_sales d fs)) := by
        rw [hf2]; exact List.mem_cons_self q r
      exact hq ▸ List.mem_of_mem_filter hqmem
  · refine List.all_eq_true.mpr ?_
    intro x hx
    rw [hrs] at hx
    rcases List.mem_cons.mp hx with rfl | hmem
    · simpa [hval] using foldlMax_init_le t x.2
    · simpa [hval] using mem_le_foldlMax t p.2 x hmem

/-- Witness for `top_region_spec` on `exFull`, whose grouped region
sums are nonempty. -/
theorem top_region_spec_witness :
    idxmax (region_sales exFull exFullFS) =
      some ((idxmax (region_sales exFull exFullFS)).getD Cell.null) ∧
    Insight.topRegion ((idxmax (region_sales exFull exFullFS)).getD Cell.null)
        (valsMax (region_sales exFull exFullFS)) ∈ insights exFull exFullFS ∧
    ((idxmax (region_sales exFull exFullFS)).getD Cell.null,
        valsMax (region_sales exFull exFullFS)) ∈ region_sales exFull exFullFS ∧
    ((region_sales exFull exFullFS).all
        (fun p => p.2 ≤ valsMax (region_sales exFull exFullFS))) = true ∧
    ((region_sales exFull exFullFS).filter
        (fun p => p.2 = valsMax (region_sales exFull exFullFS))).head? =
      some ((idxmax (region_sales exFull exFullFS)).getD Cell.null,
        valsMax (region_sales exFull exFullFS)) :=
  top_region_spec exFull exFullFS (by decide) (by decide) (by decide)

/-- A trend insight sits in the insights list exactly when both gate
columns exist and the trend block emits it (the region/category
blocks only ever emit their own constructors). -/
theorem trend_mem_insights (d : Dataset) (fs : FilterState) (i : Insight)
    (h : i = Insight.trendIncreasing ∨ i = Insight.trendDeclining) :
    i ∈ insights d fs ↔
      ("OrderDate" ∈ d.cols ∧ "Sales" ∈ d.cols ∧
        i ∈ trendInsight (df_filtered d fs)) := by
  unfold insights
  by_cases h2 : "Sales" ∈ d.cols <;> by_cases h4 : "OrderDate" ∈ d.cols <;>
    rcases h with rfl | rfl <;>
      cases idxmax (region_sales d fs) <;> cases idxmax (cat_sales_s d fs) <;>
        by_cases h1 : "Region" ∈ d.cols <;> by_cases h3 : "Category" ∈ d.cols <;>
          simp [h1, h2, h3, h4]

/-- What the trend block emits, in terms of the last and
second-to-last monthly sums of the resampled series. -/
theorem trendInsight_spec (rows : List Row) :
    (Insight.trendIncreasing ∈ trendInsight rows ↔
      ∃ a b, (sales_over_time rows).getLast? = some a ∧
        (sales_over_time rows).dropLast.getLast? = some b ∧ b < a) ∧
    (Insight.trendDeclining ∈ trendInsight rows ↔
      ∃ a b, (sales_over_time rows).getLast? = some a ∧
        (sales_over_time rows).dropLast.getLast? = some b ∧ a ≤ b) ∧
    ((sales_over_time rows).length < 2 → trendInsight rows = []) := by
  have hlast : (sales_over_time rows).getLast? =
      (sales_over_time rows).reverse.head? :=
    List.getLast?_eq_head?_reverse
  have hprev : (sales_over_time rows).dropLast.getLast? =
      (sales_over_time rows).reverse.tail.head? := by
    rw [List.getLast?_eq_head?_reverse, List.tail_reverse]
  have hlen : (sales_over_time rows).length =
      (sales_over_time rows).reverse.length := (List.length_reverse _).symm
  unfold trendInsight
  rcases hrev : (sales_over_time rows).reverse with _ | ⟨a, u⟩
  · rw [hrev] at hlast hprev
    simp [hlast, hprev]
  · rcases u with _ | ⟨b, t⟩
    · rw [hrev] at hlast hprev
      simp [hlast, hprev]
    · rw [hrev] at hlast hprev hlen
      refine ⟨?_, ?_, ?_⟩
      · by_cases hba : b < a <;> simp [hba, hlast, hprev]
      · by_cases hba : b < a
        · simp [hba, hlast, hprev, not_le.mpr hba]
        · simp [hba, hlast, hprev, not_lt.mp hba]
      · intro hl
        rw [hlen] at hl
        simp only [List.length_cons] at hl
        omega

/-- C4: the trend insight says sales are increasing iff the final
calendar-month resampled sum strictly exceeds the second-to-last one,
declining iff it does not, and no trend insight is emitted when fewer
than 2 monthly periods exist or when `OrderDate`/`Sales` is absent. -/
theorem sales_trend_spec (d : Dataset) (fs : FilterState) :
    (Insight.trendIncreasing ∈ insights d fs ↔
      ("OrderDate" ∈ d.cols ∧ "Sales" ∈ d.cols ∧
        ∃ a b, (sales_over_time (df_filtered d fs)).getLast? = some a ∧
          (sales_over_time (df_filtered d fs)).dropLast.getLast? = some b ∧
          b < a)) ∧
    (Insight.trendDeclining ∈ insights d fs ↔
      ("OrderDate" ∈ d.cols ∧ "Sales" ∈ d.cols ∧
        ∃ a b, (sales_over_time (df_filtered d fs)).getLast? = some a ∧
          (sales_over_time (df_filtered d fs)).dropLast.getLast? = some b ∧
          a ≤ b)) ∧
    ((sales_over_time (df_filtered d fs)).length < 2 →
      Insight.trendIncreasing ∉ insights d fs ∧
      Insight.trendDeclining ∉ insights d fs) := by
  have hmemI := trend_mem_insights d fs Insight.trendIncreasing (Or.inl rfl)
  have hmemD := trend_mem_insights d fs Insight.trendDeclining (Or.inr rfl)
  have hspec := trendInsight_spec (df_filtered d fs)
  refine ⟨?_, ?_, ?_⟩
  · rw [hmemI, hspec.1]
  · rw [hmemD, hspec.2.1]
  · intro hlen
    have hnil := hspec.2.2 hlen
    constructor <;> intro hmem
    · have := (hmemI.mp hmem).2.2
      rw [hnil] at this
      cases this
    · have := (hmemD.mp hmem).2.2
      rw [hnil] at this
      cases this

/-- Witness for `sales_trend_spec`: a dataset with no datetime rows
has fewer than 2 monthly periods, hence no trend insight. -/
theorem sales_trend_spec_witness :
    Insight.trendIncreasing ∉ insights exNoDate (mkFS [] []) ∧
    Insight.trendDeclining ∉ insights exNoDate (mkFS [] []) :=
  (sales_trend_spec exNoDate (mkFS [] [])).2.2 (by decide)

/-- Reader step: a comma outside quotes finishes the current field. -/
theorem csvAux_comma (cur : List Char) (flds : List String)
    (rows : List (List String)) (t : List Char) :
    csvAux false cur flds rows (',' :: t) =
      csvAux false [] (flds ++ [⟨cur⟩]) rows t := by
  rw [csvAux]
  simp

/-- Reader step: a newline outside quotes finishes the current
record. -/
theorem csvAux_newline (cur : List Char) (flds : List String)
    (rows : List (List String)) (t : List Char) :
    csvAux false cur flds rows ('\n' :: t) =
      csvAux false [] [] (rows ++ [flds ++ [⟨cur⟩]]) t := by
  rw [csvAux]
  simp +decide

/-- Reader step: a quote at field start opens a quoted field. -/
theorem csvAux_openQuote (flds : List String) (rows : List (List String))
    (t : List Char) :
    csvAux false [] flds rows ('"' :: t) = csvAux true [] flds rows t := by
  rw [csvAux]
  simp +decide

/-- Reader step: a quote not followed by another quote closes the
quoted field. -/
theorem csvAux_closeQuote (cur : List Char) (flds : List String)
    (rows : List (List String)) (t : List Char) (h : t.head? ≠ some '"') :
    csvAux true cur flds rows ('"' :: t) = csvAux false cur flds rows t := by
  rw [csvAux]
  simp [h]

/-- Reader scan: plain characters outside quotes accumulate into the
current field. -/
theorem csvAux_scan_unquoted (s : List Char) (cur : List Char)
    (flds : List String) (rows : List (List String)) (t : List Char)
    (hs : ∀ c ∈ s, c ≠ ',' ∧ c ≠ '\n' ∧ c ≠ '"') :
    csvAux false cur flds rows (s ++ t) = csvAux false (cur ++ s) flds rows t := by
  induction s generalizing cur with
  | nil => simp
  | cons c s ih =>
      obtain ⟨h1, h2, h3⟩ := hs c (List.mem_cons_self c s)
      rw [List.cons_append, csvAux]
      simp [h1, h2, h3]
      rw [ih (cur ++ [c]) (fun x hx => hs x (List.mem_cons_of_mem c hx)),
        List.append_assoc]
      rfl

/-- Reader scan: non-quote characters inside quotes accumulate into
the current field. -/
theorem csvAux_scan_quoted (s : List Char) (cur : List Char)
    (flds : List String) (rows : List (List String)) (t : List Char)
    (hs : ∀ c ∈ s, c ≠ '"') :
    csvAux true cur flds rows (s ++ t) = csvAux true (cur ++ s) flds rows t := by
  induction s generalizing cur with
  | nil => simp
  | cons c s ih =>
      have h1 := hs c (List.mem_cons_self c s)
      rw [List.cons_append, csvAux]
      simp [h1]
      rw [ih (cur ++ [c]) (fun x hx => hs x (List.mem_cons_of_mem c hx)),
        List.append_assoc]
      rfl

/-- Doubling quotes is the identity on quote-free character lists. -/
theorem flattenMap_eq_self (l : List Char) (h : ∀ c ∈ l, c ≠ '"') :
    (l.map (fun ch => if ch = '"' then ['"', '"'] else [ch])).flatten = l := by
  induction l with
  | nil => rfl
  | cons c t ih =>
      simp [h c (List.mem_cons_self c t),
        ih (fun x hx => h x (List.mem_cons_of_mem c hx))]

/-- Escaping a quote-free field is the identity. -/
theorem escapeQuotes_eq_self (v : String) (hv : ∀ c ∈ v.data, c ≠ '"') :
    escapeQuotes v = v := by
  unfold escapeQuotes
  rw [flattenMap_eq_self v.data hv]

/-- Parsing one encoded two-field record appends it to the finished
records and resets the state (the metric field is never quoted, the
value field may be). -/
theorem csvAux_record2 (m v : String) (flds : List String)
    (rows : List (List String)) (rest : List Char)
    (hm : ∀ c ∈ m.data, c ≠ ',' ∧ c ≠ '\n' ∧ c ≠ '"' ∧ c ≠ '\r')
    (hv : ∀ c ∈ v.data, c ≠ '"' ∧ c ≠ '\n' ∧ c ≠ '\r') :
    csvAux false [] flds rows ((encodeRecord [m, v]).data ++ '\n' :: rest) =
      csvAux false [] [] (rows ++ [flds ++ [m, v]]) rest := by
  have hqm : needsQuote m = false := by
    unfold needsQuote
    rw [List.any_eq_false]
    intro c hc
    obtain ⟨h1, h2, h3, h4⟩ := hm c hc
    simp [h1, h2, h3, h4]
  have hem : encodeField m = m := by
    unfold encodeField
    rw [hqm]
    simp
  have hm3 : ∀ c ∈ m.data, c ≠ ',' ∧ c ≠ '\n' ∧ c ≠ '"' :=
    fun c hc => ⟨(hm c hc).1, (hm c hc).2.1, (hm c hc).2.2.1⟩
  have hrec : (encodeRecord [m, v]).data =
      (encodeField m).data ++ ',' :: (encodeField v).data := by
    show (encodeField m ++ "," ++ encodeField v).data = _
    simp [String.data_append]
  rw [hrec, hem, List.append_assoc]
  rw [csvAux_scan_unquoted m.data [] flds rows _ hm3]
  show csvAux false m.data flds rows
    (',' :: ((encodeField v).data ++ '\n' :: rest)) = _
  rw [csvAux_comma]
  by_cases hqv : needsQuote v = true
  · have hvq : ∀ c ∈ v.data, c ≠ '"' := fun c hc => (hv c hc).1
    have hev : (encodeField v).data = '"' :: (v.data ++ ['"']) := by
      unfold encodeField
      rw [hqv, escapeQuotes_eq_self v hvq]
      show ("\"" ++ v ++ "\"").data = _
      simp [String.data_append]
    rw [hev]
    show csvAux false [] (flds ++ [m]) rows
      ('"' :: ((v.data ++ ['"']) ++ '\n' :: rest)) = _
    rw [csvAux_openQuote, List.append_assoc]
    rw [csvAux_scan_quoted v.data [] (flds ++ [m]) rows _ hvq]
    show csvAux true v.data (flds ++ [m]) rows ('"' :: '\n' :: rest) = _
    rw [csvAux_closeQuote _ _ _ _ (by simp +decide)]
    rw [csvAux_newline]
    show csvAux false [] [] (rows ++ [(flds ++ [m]) ++ [v]]) rest = _
    rw [List.append_assoc]
    rfl
  · have hqv' : needsQuote v = false := by
      simpa using hqv
    have hv3 : ∀ c ∈ v.data, c ≠ ',' ∧ c ≠ '\n' ∧ c ≠ '"' := by
      intro c hc
      have hany := hqv'
      unfold needsQuote at hany
      rw [List.any_eq_false] at hany
      have h5 := hany c hc
      simp at h5
      obtain ⟨⟨⟨hc1, hc2⟩, hc3⟩, hc4⟩ := h5
      exact ⟨hc1, hc3, hc2⟩
    have hev : encodeField v = v := by
      unfold encodeField
      rw [hqv']
      simp
    rw [hev]
    rw [csvAux_scan_unquoted v.data [] (flds ++ [m]) rows _ hv3]
    show csvAux false v.data (flds ++ [m]) rows ('\n' :: rest) = _
    rw [csvAux_newline]
    show csvAux false [] [] (rows ++ [(flds ++ [m]) ++ [v]]) rest = _
    rw [List.append_assoc]
    rfl

/-- Parsing the encoding of a list of two-field records reproduces
the records. -/
theorem csvAux_records (prs : List (String × String))
    (rows : List (List String))
    (h : ∀ p ∈ prs,
        (∀ c ∈ (Prod.fst p).data, c ≠ ',' ∧ c ≠ '\n' ∧ c ≠ '"' ∧ c ≠ '\r') ∧
        (∀ c ∈ (Prod.snd p).data, c ≠ '"' ∧ c ≠ '\n' ∧ c ≠ '\r')) :
    csvAux false [] [] rows (encodeCSV (prs.map (fun p => [p.1, p.2]))).data =
      rows ++ prs.map (fun p => [p.1, p.2]) := by
  induction prs generalizing rows with
  | nil =>
      show csvAux false [] [] rows [] = rows ++ []
      rw [csvAux]
      simp
  | cons p prs ih =>
      have hdata : (encodeCSV ((p :: prs).map (fun q => [q.1, q.2]))).data =
          (encodeRecord [p.1, p.2]).data ++ '\n' ::
            (encodeCSV (prs.map (fun q => [q.1, q.2]))).data := by
        show (encodeRecord [p.1, p.2] ++ "\n" ++
          encodeCSV (prs.map (fun q => [q.1, q.2]))).data = _
        simp [String.data_append]
      rw [hdata,
        csvAux_record2 p.1 p.2 [] rows _
          (h p (List.mem_cons_self p prs)).1 (h p (List.mem_cons_self p prs)).2,
        ih (rows ++ [[] ++ [p.1, p.2]])
          (fun q hq => h q (List.mem_cons_of_mem p hq))]
      simp

/-- Digit characters are never quote, newline or carriage return. -/
theorem digitChar_safe (k : Nat) (hk : k < 10) :
    digitChar k ≠ '"' ∧ digitChar k ≠ '\n' ∧ digitChar k ≠ '\r' := by
  interval_cases k <;> decide

/-- All characters of a decimal rendering are digits, hence safe. -/
theorem natDigits_safe (n : Nat) :
    ∀ c ∈ natDigits n, c ≠ '"' ∧ c ≠ '\n' ∧ c ≠ '\r' := by
  induction n using Nat.strong_induction_on with
  | _ n ih =>
      rw [natDigits]
      split
      · intro c hc
        simp only [List.mem_singleton] at hc
        subst hc
        exact digitChar_safe n (by omega)
      · intro c hc
        rcases List.mem_append.mp hc with h | h
        · exact ih (n / 10) (Nat.div_lt_self (by omega) (by omega)) c h
        · simp only [List.mem_singleton] at h
          subst h
          exact digitChar_safe (n % 10) (Nat.mod_lt n (by omega))

/-- Comma grouping only introduces commas. -/
theorem group3Rev_subset (l : List Char) :
    ∀ c ∈ group3Rev l, c ∈ l ∨ c = ',' := by
  induction l using group3Rev.induct with
  | case1 => intro x hx; cases hx
  | case2 a => intro x hx; exact Or.inl hx
  | case3 a b => intro x hx; exact Or.inl hx
  | case4 a b c => intro x hx; exact Or.inl hx
  | case5 a b c d rest ih =>
      intro x hx
      rw [group3Rev] at hx
      rcases List.mem_cons.mp hx with rfl | hx
      · exact Or.inl (by simp)
      rcases List.mem_cons.mp hx with rfl | hx
      · exact Or.inl (by simp)
      rcases List.mem_cons.mp hx with rfl | hx
      · exact Or.inl (by simp)
      rcases List.mem_cons.mp hx with rfl | hx
      · exact Or.inr rfl
      · rcases ih x hx with h | h
        · exact Or.inl (by simp at h ⊢; tauto)
        · exact Or.inr h

/-- The comma-grouped integer rendering contains no quote, newline or
carriage return. -/
theorem commaGroup_safe (n : Nat) :
    ∀ c ∈ (commaGroup n).data, c ≠ '"' ∧ c ≠ '\n' ∧ c ≠ '\r' := by
  intro c hc
  have hc2 : c ∈ (group3Rev (natDigits n).reverse).reverse := hc
  rw [List.mem_reverse] at hc2
  rcases group3Rev_subset _ c hc2 with h | rfl
  · rw [List.mem_reverse] at h
    exact natDigits_safe n c h
  · decide

/-- The two-digit cents rendering is safe. -/
theorem twoDigits_safe (m : Nat) :
    ∀ c ∈ (twoDigits m).data, c ≠ '"' ∧ c ≠ '\n' ∧ c ≠ '\r' := by
  intro c hc
  rcases List.mem_cons.mp hc with rfl | hc
  · exact digitChar_safe _ (Nat.mod_lt _ (by omega))
  rcases List.mem_cons.mp hc with rfl | hc
  · exact digitChar_safe _ (Nat.mod_lt _ (by omega))
  · cases hc

/-- The fixed-two-decimals money rendering is safe. -/
theorem formatFixed2_safe (q : ℚ) :
    ∀ c ∈ (formatFixed2 q).data, c ≠ '"' ∧ c ≠ '\n' ∧ c ≠ '\r' := by
  intro c hc
  unfold formatFixed2 at hc
  simp only [String.data_append] at hc
  rcases List.mem_append.mp hc with hc | hc
  · rcases List.mem_append.mp hc with hc | hc
    · rcases List.mem_append.mp hc with hc | hc
      · split at hc
        · simp only [List.mem_singleton] at hc
          subst hc
          decide
        · cases hc
      · exact commaGroup_safe _ c hc
    · simp only [List.mem_singleton] at hc
      subst hc
      decide
  · exact twoDigits_safe _ c hc

/-- A `$`-prefixed money string is safe. -/
theorem dollarFixed2_safe (q : ℚ) :
    ∀ c ∈ ("$" ++ formatFixed2 q).data, c ≠ '"' ∧ c ≠ '\n' ∧ c ≠ '\r' := by
  intro c hc
  rw [String.data_append] at hc
  rcases List.mem_append.mp hc with hc | hc
  · simp only [List.mem_singleton] at hc
    subst hc
    decide
  · exact formatFixed2_safe q c hc

/-- C6: the CSV summary download has columns Metric and Value and
exactly 4 data rows, and re-parsing it reproduces the four displayed
KPI values exactly as their formatted strings ($-prefixed,
comma-grouped, two decimals for money; comma-grouped integer for
orders). -/
theorem csv_roundtrip (d : Dataset) (fs : FilterState) :
    parseCSV (csvSummary d fs) =
      ["Metric", "Value"] :: (summary_df d fs).map (fun p => [p.1, p.2]) ∧
    (summary_df d fs).map Prod.fst =
      ["Total Sales", "Total Orders", "Avg Order Value", "Total Profit"] ∧
    (summary_df d fs).length = 4 ∧
    (summary_df d fs).map Prod.snd =
      ["$" ++ formatFixed2 (total_sales d fs), commaGroup (total_orders d fs),
       "$" ++ formatFixed2 (avg_order_value d fs),
       "$" ++ formatFixed2 (total_profit d fs)] := by
  refine ⟨?_, rfl, rfl, rfl⟩
  have hsafe : ∀ p ∈ ("Metric", "Value") :: summary_df d fs,
      (∀ c ∈ (Prod.fst p).data, c ≠ ',' ∧ c ≠ '\n' ∧ c ≠ '"' ∧ c ≠ '\r') ∧
      (∀ c ∈ (Prod.snd p).data, c ≠ '"' ∧ c ≠ '\n' ∧ c ≠ '\r') := by
    intro p hp
    rcases List.mem_cons.mp hp with rfl | hp
    · exact ⟨by decide, by decide⟩
    simp only [summary_df] at hp
    rcases List.mem_cons.mp hp with rfl | hp
    · refine ⟨?_, dollarFixed2_safe _⟩
      show ∀ c ∈ ("Total Sales" : String).data,
        c ≠ ',' ∧ c ≠ '\n' ∧ c ≠ '"' ∧ c ≠ '\r'
      decide
    rcases List.mem_cons.mp hp with rfl | hp
    · refine ⟨?_, commaGroup_safe _⟩
      show ∀ c ∈ ("Total Orders" : String).data,
        c ≠ ',' ∧ c ≠ '\n' ∧ c ≠ '"' ∧ c ≠ '\r'
      decide
    rcases List.mem_cons.mp hp with rfl | hp
    · refine ⟨?_, dollarFixed2_safe _⟩
      show ∀ c ∈ ("Avg Order Value" : String).data,
        c ≠ ',' ∧ c ≠ '\n' ∧ c ≠ '"' ∧ c ≠ '\r'
      decide
    rcases List.mem_cons.mp hp with rfl | hp
    · refine ⟨?_, dollarFixed2_safe _⟩
      show ∀ c ∈ ("Total Profit" : String).data,
        c ≠ ',' ∧ c ≠ '\n' ∧ c ≠ '"' ∧ c ≠ '\r'
      decide
    · cases hp
  have hmain := csvAux_records (("Metric", "Value") :: summary_df d fs) [] hsafe
  show csvAux false [] [] [] (csvSummary d fs).data = _
  have hcsv : (csvSummary d fs).data =
      (encodeCSV ((("Metric", "Value") :: summary_df d fs).map
        (fun p => [p.1, p.2]))).data := rfl
  rw [hcsv, hmain]
  simp

end Dash
